import Mathlib

/-!
# Verification of the Canvas data aggregator

A shallow embedding, in Lean 4, of the pagination / aggregation engine of the
`canvas-data-testing` repository (an Express backend that walks Canvas LMS
pagination links, fans requests out per course, tolerates partial permission
failures, and merges everything into composite JSON reports).

The embedding follows the JavaScript source:

* `fetchAllPages` (src/index.js lines 53-145) becomes `CanvasData.fetchGo` /
  `CanvasData.fetchAllPagesRun`.  The HTTP transport is abstracted as an
  oracle `env : Nat → String → HttpOutcome α` giving, for the i-th GET issued
  by one call, the upstream's response to the requested URL.  `Date.now()`
  (used only for the cache-busting query parameter and for timing logs) is
  modelled by the request counter; timing values are log-only in the source
  and never flow into a returned value, so they are elided.
* the `/api/all-data` aggregation handler (src/index.js lines 868-1135)
  becomes `CanvasData.allDataAggregate`, over an abstract fetcher
  `F : String → FetchOptions → FetchResult JRec` standing for `fetchAllPages`
  (a `.thrown` result is a promise rejection caught by the handler's
  `try`/`catch`es).
* the due-date comparator of `/api/current-assignments` (src/index.js lines
  335-339, identical in src/unnamed/part_000 lines 129-133), the grade
  extraction of `/api/current-grades` (lines 787-817, identical in
  `/api/current-term-grades` lines 668-698), and
  `canvasService.getAnnouncements` (src/services/canvasService.js lines
  77-95) are embedded directly.
-/

namespace CanvasData

/-! ## JavaScript string primitives used by the fetcher -/

/-- JS truthiness of the `nextUrl` variable, which holds a string or `null`:
`null` and the empty string are falsy, every other string is truthy. -/
def jsTruthyStr : Option String → Bool
  | none => false
  | some s => s != ""

/-- Scan for an occurrence of `pat` anywhere in the character list
(structurally recursive, so that it evaluates inside the kernel). -/
def hasSubAux (pat : List Char) : List Char → Bool
  | [] => pat.isEmpty
  | c :: rest => pat.isPrefixOf (c :: rest) || hasSubAux pat rest

/-- JS `String.prototype.includes`: does `pat` occur in `s`?
(`includes("")` is always `true`.) -/
def hasSub (s pat : String) : Bool :=
  hasSubAux pat.toList s.toList

/-- Attempt of the regex `<([^>]+)>` at a position directly after a `<`:
greedily take the nonempty run of non-`>` characters, which must be followed
by a `>`. -/
def angleAt (cs : List Char) : Option String :=
  let run := cs.takeWhile (fun c => c != '>')
  if run.isEmpty then none
  else
    match cs.drop run.length with
    | '>' :: _ => some (String.mk run)
    | _ => none

/-- First match of the JS regex `/<([^>]+)>/`: scan left to right; at each
`<` try to complete a match, otherwise (or on failure) resume the scan one
character further, exactly as the regex engine advances its start position. -/
def firstAngleAux : List Char → Option String
  | [] => none
  | '<' :: rest =>
      match angleAt rest with
      | some s => some s
      | none => firstAngleAux rest
  | _ :: rest => firstAngleAux rest

/-- The `nextLink.match(/<([^>]+)>/)` capture group, or `none` when the regex
does not match. -/
def firstAngle (s : String) : Option String := firstAngleAux s.toList

/-- Remove the first (leftmost) occurrence of the nonempty pattern `pat`
from the character list, or return `none` when it does not occur. -/
def removeFirstAux (pat : List Char) : List Char → Option (List Char)
  | [] => none
  | c :: rest =>
      if pat.isPrefixOf (c :: rest) then some ((c :: rest).drop pat.length)
      else (removeFirstAux pat rest).map (fun r => c :: r)

/-- JS `String.prototype.replace` with a string pattern replaces only the
first occurrence; the source always replaces with the empty string
(`fullNextUrl.replace(CANVAS_URL, '')`).  Replacing the empty pattern
inserts the empty string at position 0, leaving `s` unchanged. -/
def stripFirst (s pat : String) : String :=
  if pat = "" then s
  else
    match removeFirstAux pat.toList s.toList with
    | some r => String.mk r
    | none => s

/-- Split a character list at every occurrence of the separator character;
`acc` holds the (reversed) characters of the current piece.  JS
`"".split(',')` is `[""]` and a trailing separator yields a final `""`,
which this definition reproduces. -/
def splitOnCharAux (sep : Char) : List Char → List Char → List String
  | [], acc => [String.mk acc.reverse]
  | c :: rest, acc =>
      if c = sep then String.mk acc.reverse :: splitOnCharAux sep rest []
      else splitOnCharAux sep rest (c :: acc)

/-- JS `String.prototype.split` with a one-character separator. -/
def splitOnChar (sep : Char) (s : String) : List String :=
  splitOnCharAux sep s.toList []

/-- Numeric value of a decimal digit character. -/
def digitVal (c : Char) : Nat := c.toNat - '0'.toNat

/-- JS `parseInt` on a nonempty string of decimal digits. -/
def natOfDigits (ds : List Char) : Nat :=
  ds.foldl (fun n c => n * 10 + digitVal c) 0

/-- First match of the JS regex `/per_page=(\d+)/` over the original request
url, as used by the early-stop check (src/index.js line 90): scan for the
first occurrence of `per_page=` that is directly followed by at least one
digit and capture the maximal digit run.  `none` when no such occurrence
exists — in that case `url.match(...)` is `null` in JS and the subscript
`[1]` throws a `TypeError` (inside the `try`, hence caught like any other
non-HTTP error). -/
def perPageAux : List Char → Option Nat
  | [] => none
  | c :: rest =>
      if ("per_page=".toList).isPrefixOf (c :: rest) then
        let ds := ((c :: rest).drop 9).takeWhile Char.isDigit
        if ds.isEmpty then perPageAux rest else some (natOfDigits ds)
      else perPageAux rest

/-- The page size configured in a request URL, per `/per_page=(\d+)/`. -/
def perPageParam (s : String) : Option Nat := perPageAux s.toList

/-! ## The paginated fetcher (src/index.js lines 53-145) -/

/-- A decoded response body: the upstream returns either a JSON array of
items or a single (non-array) object. -/
inductive BodyData (α : Type) where
  | arr (items : List α)
  | obj (o : α)
deriving DecidableEq, Repr

/-- One successful HTTP response: its decoded body and the optional `Link`
header (`response.headers.link`). -/
structure HttpResponse (α : Type) where
  data : BodyData α
  link : Option String
deriving DecidableEq, Repr

/-- Outcome of one `canvasAPI.get`: a response, or a rejection carrying
`error.response?.status` (`none` when there is no HTTP response, e.g. a
network failure or a synchronous exception) and `error.message`. -/
inductive HttpOutcome (α : Type) where
  | ok (resp : HttpResponse α)
  | err (status : Option Nat) (msg : String)
deriving DecidableEq, Repr

/-- Value returned (or exception propagated) by `fetchAllPages`:
* `items l` — the accumulated array `allData`;
* `single o` — a non-array body returned verbatim (line 98);
* `errObj error status` — the plain object `{error: 'Permission denied',
  status: 403}` returned as an ordinary value on a non-silent 403 (line 126);
* `thrown status msg` — an error rethrown to the caller (line 132). -/
inductive FetchResult (α : Type) where
  | items (l : List α)
  | single (o : α)
  | errObj (error : String) (status : Nat)
  | thrown (status : Option Nat) (msg : String)
deriving DecidableEq, Repr

/-- The options destructured at src/index.js line 54, with their defaults.
`logTiming` only switches `console.log` calls and never affects the returned
value. -/
structure FetchOptions where
  silentErrors : Bool := false
  maxPages : Nat := 10
  logTiming : Bool := false
deriving DecidableEq, Repr

/-- Observable outcome of one full `fetchAllPages` run: the returned value
and the final value of the `pageCount` counter (the number of GET requests
issued). -/
structure FetchRun (α : Type) where
  result : FetchResult α
  pageCount : Nat
deriving DecidableEq, Repr

/-- The `urlWithCacheBuster` construction (src/index.js lines 67-68): append `_=<Date.now()>`
with `&` when the url already has a query string, else `?`.  The wall clock
is modelled by the request counter `t`; the buster's value is opaque to the
upstream. -/
def withCacheBuster (u : String) (t : Nat) : String :=
  u ++ (if hasSub u "?" then "&" else "?") ++ "_=" ++ toString t

/-- The `linkHeader` processing (src/index.js lines 101-119): split the header at
commas, find the first part containing `rel="next"`, extract its `<...>` URL
and strip the configured base URL (first occurrence) to obtain a relative
path.  Any missing piece sets `nextUrl` to `null`. -/
def nextFromLink (base : String) : Option String → Option String
  | none => none
  | some h =>
      match (splitOnChar ',' h).find? (fun part => hasSub part "rel=\"next\"") with
      | none => none
      | some nextLink =>
          match firstAngle nextLink with
          | none => none
          | some full => some (stripFirst full base)

/-- The `while` loop of `fetchAllPages` (src/index.js lines 61-136).
State: remaining `fuel` (the loop runs at most `maxPages` times, so
`fuel = maxPages - pageCount` suffices), the current `nextUrl` (a string or
`null`), `pageCount`, and the accumulator `allData`.  `url` is the original
request URL — the early-stop check at line 90 reads `url`, not `nextUrl`.
The `i`-th GET issued is answered by `env i urlWithCacheBuster`. -/
def fetchGo (env : Nat → String → HttpOutcome α) (base url : String)
    (silent : Bool) (maxPages : Nat) :
    Nat → Option String → Nat → List α → FetchRun α
  | 0, _, pageCount, allData => ⟨.items allData, pageCount⟩
  | _ + 1, none, pageCount, allData => ⟨.items allData, pageCount⟩
  | fuel + 1, some u, pageCount, allData =>
      if u = "" then ⟨.items allData, pageCount⟩
      else if pageCount < maxPages then
        let pc := pageCount + 1
        match env pageCount (withCacheBuster u pageCount) with
        | .err status msg =>
            if status = some 403 then
              ⟨if silent then .items [] else .errObj "Permission denied" 403, pc⟩
            else
              ⟨if silent then .items [] else .thrown status msg, pc⟩
        | .ok resp =>
            match resp.data with
            | .obj o => ⟨.single o, pc⟩
            | .arr l =>
                let allData' := allData ++ l
                if l.length = 0 then ⟨.items allData', pc⟩
                else if hasSub url "per_page=" then
                  match perPageParam url with
                  | none =>
                      ⟨if silent then .items [] else .thrown none "TypeError", pc⟩
                  | some n =>
                      if l.length < n then ⟨.items allData', pc⟩
                      else
                        fetchGo env base url silent maxPages fuel
                          (nextFromLink base resp.link) pc allData'
                else
                  fetchGo env base url silent maxPages fuel
                    (nextFromLink base resp.link) pc allData'
      else ⟨.items allData, pageCount⟩

/-- One call of `fetchAllPages(url, options)` against the transport oracle
`env`, with `base` the configured `CANVAS_URL`.  Initial state: `nextUrl =
url`, `pageCount = 0`, `allData = []`; initial fuel `maxPages` dominates the
loop bound. -/
def fetchAllPagesRun (env : Nat → String → HttpOutcome α) (base url : String)
    (opts : FetchOptions) : FetchRun α :=
  fetchGo env base url opts.silentErrors opts.maxPages opts.maxPages (some url) 0 []

/-- The value `fetchAllPages` resolves with (or the error it rejects with). -/
def fetchAllPages (env : Nat → String → HttpOutcome α) (base url : String)
    (opts : FetchOptions) : FetchResult α :=
  (fetchAllPagesRun env base url opts).result

/-! ## Valid chains of `next` links -/

/-- An upstream resource of `len` paginated pages: the URL, items and `Link`
header of each page, indexed by page number. -/
structure ChainModel (α : Type) where
  len : Nat
  url : Nat → String
  page : Nat → List α
  hdr : Nat → Option String

/-- A page after which the upstream has more items: it is nonempty, and when
the request URL configures a page size it meets that size (a shorter page
would mean the upstream has no further non-empty page, spec §4.1). -/
def FullPage (u0 : String) (l : List α) : Prop :=
  l ≠ [] ∧ (hasSub u0 "per_page=" = true → ∃ n, perPageParam u0 = some n ∧ n ≤ l.length)

/-- The oracle `env` serves, for a fetch starting at `u0`, a valid chain of
`next` links described by `c`: request `i` (to page `i`'s URL, cache buster
included) answers with page `i`'s items, and the code's own link extraction
`nextFromLink` resolves page `i`'s header to page `i+1`'s URL, or to `null`
at the end of the chain.  Page URLs are truthy strings, every non-final page
is full, and if a page size is configured in `u0` it is parseable. -/
structure IsChain (env : Nat → String → HttpOutcome α) (base u0 : String)
    (c : ChainModel α) : Prop where
  len_pos : 0 < c.len
  url_zero : c.url 0 = u0
  url_truthy : ∀ i, i < c.len → c.url i ≠ ""
  pp_ok : hasSub u0 "per_page=" = true → (perPageParam u0).isSome
  mid_full : ∀ i, i + 1 < c.len → FullPage u0 (c.page i)
  serves : ∀ i, i < c.len →
      env i (withCacheBuster (c.url i) i) = .ok ⟨.arr (c.page i), c.hdr i⟩
  links : ∀ i, i < c.len →
      nextFromLink base (c.hdr i) =
        if i + 1 < c.len then some (c.url (i + 1)) else none

/-- Concatenation, in page order, of the items of pages `k, k+1, …, k+n-1`. -/
def chainSeg (c : ChainModel α) : Nat → Nat → List α
  | _, 0 => []
  | k, n + 1 => c.page k ++ chainSeg c (k + 1) n

/-! ## Due-date sorting (/api/current-assignments, src/index.js lines
335-339; the comparator in src/unnamed/part_000 lines 129-133 is
character-for-character the same) -/

/-- An aggregated assignment as seen by the sort: its `due_at` field (an ISO
date string, or `null`) plus an opaque tag standing for all other fields. -/
structure Assignment where
  tag : Nat
  due_at : Option String
deriving DecidableEq, Repr

/-- Value of `new Date(s).getTime()` for an ISO `YYYY-MM-DD` date string, up
to a strictly increasing change of scale: the timestamp is strictly monotone
in the (year, month, day) triple, and the comparator's result is consumed
only through its sign, so the order-faithful encoding
`y * 10000 + m * 100 + d` is an adequate model. -/
def dateVal (s : String) : Int :=
  match (splitOnChar '-' s).map (fun p => natOfDigits (p.toList.takeWhile Char.isDigit)) with
  | [y, m, d] => ((y * 10000 + m * 100 + d : Nat) : Int)
  | _ => 0

/-- The comparator of src/index.js lines 335-339:
`if (!a.due_at) return 1; if (!b.due_at) return -1;`
`return new Date(a.due_at) - new Date(b.due_at);`
(`!a.due_at` is true for `null` and for the empty string). -/
def dueCmp (a b : Assignment) : Int :=
  if jsTruthyStr a.due_at = false then 1
  else if jsTruthyStr b.due_at = false then -1
  else dateVal (a.due_at.getD "") - dateVal (b.due_at.getD "")

/-- JS `Array.prototype.sort` is a stable sort (ECMA-262); it keeps `a`
before `b` unless `comparefn(b, a) < 0`, so the "may precede" relation
induced by the comparator is `le a b := ¬(dueCmp b a < 0)`. -/
def jsSortLe (a b : Assignment) : Bool := decide (0 ≤ dueCmp b a)

/-- The sort `currentAssignments.sort((a, b) => …)` of src/index.js line 335,
modelled as a stable sort by the induced relation `jsSortLe`.  That relation
is total and transitive (`jsSortLe_iff` below), and all stable sorts by one
total transitive relation compute the same list, so Mathlib's stable
`insertionSort` is an observationally faithful model of the engine's stable
sort. -/
def sortByDueDate (l : List Assignment) : List Assignment :=
  l.insertionSort (fun a b => jsSortLe a b = true)

/-- The spec's description of the order (spec §4.3 stage 5): ascending by due
date "via a total order in which a missing date compares greater than any
date" — the sort key sends a missing (falsy) due date to `⊤`. -/
def dueKeySpec (a : Assignment) : WithTop Int :=
  if jsTruthyStr a.due_at then ((dateVal (a.due_at.getD "") : Int) : WithTop Int) else ⊤

/-! ## Grade extraction (/api/current-grades, src/index.js lines 787-817;
the same code appears in /api/current-term-grades, lines 668-698) -/

/-- A course enrollment as consumed by grade extraction.  `Option` models a
field that may be absent (`undefined`); the extraction only tests presence
(`!== undefined`) and passes score values through untouched, so scores are
modelled as integers without loss. -/
structure Enrollment where
  type : String
  computed_current_score : Option Int
  computed_final_score : Option Int
  computed_current_grade : Option String
  computed_final_grade : Option String
deriving DecidableEq, Repr

/-- A course term (only its `name` is read). -/
structure CTerm where
  name : String
deriving DecidableEq, Repr

/-- A course record as consumed by grade extraction. -/
structure GradeCourse where
  id : Nat
  name : String
  course_code : String
  enrollments : Option (List Enrollment)
  term : Option CTerm
deriving DecidableEq, Repr

/-- One element of the `gradesData` array built at lines 808-816. -/
structure GradeEntry where
  course_id : Nat
  course_name : String
  course_code : String
  grade : Option Int
  grade_letter : Option String
  term : Option String
  enrollment_type : Option String
deriving DecidableEq, Repr

/-- Lines 789-790:
`course.enrollments ? course.enrollments.find(e => e.type === 'student') : null`. -/
def studentEnrollment (course : GradeCourse) : Option Enrollment :=
  match course.enrollments with
  | some es => es.find? (fun e => e.type == "student")
  | none => none

/-- Grade extraction, src/index.js lines 787-817 (the body of the
`courses.map` building `gradesData`). -/
def extractGrade (course : GradeCourse) : GradeEntry :=
  let enrollment := studentEnrollment course
  let hasGrade : Bool :=
    match enrollment with
    | some e => e.computed_current_score.isSome || e.computed_final_score.isSome
    | none => false
  let grade : Option Int :=
    if hasGrade then
      match enrollment with
      | some e =>
          if e.computed_current_score.isSome then e.computed_current_score
          else e.computed_final_score
      | none => none
    else none
  let gradeLetter : Option String :=
    if hasGrade then
      match enrollment with
      | some e =>
          if e.computed_current_grade.isSome then e.computed_current_grade
          else e.computed_final_grade
      | none => none
    else none
  { course_id := course.id
    course_name := course.name
    course_code := course.course_code
    grade := grade
    grade_letter := gradeLetter
    term := course.term.map (fun t => t.name)
    enrollment_type := enrollment.map (fun e => e.type) }

/-! ## The resource client and the /api/all-data aggregation -/

/-- An opaque upstream JSON record; only its `id` field is ever read by the
aggregation code. -/
structure JRec where
  id : Nat
deriving DecidableEq, Repr

/-- Options of `canvasService.getAnnouncements` with their defaults
(src/services/canvasService.js line 78). -/
structure AnnouncementOptions where
  latestOnly : Bool := false
  startDate : String := "2023-01-01"
deriving DecidableEq, Repr

/-- JS template interpolation of a boolean value. -/
def jsBoolString : Bool → String
  | true => "true"
  | false => "false"

/-- The `canvasService.getAnnouncements` accessor
(src/services/canvasService.js lines 77-95), over an abstract `fetchAllPages`
`F`.  The second component records the URLs delegated to `fetchAllPages`, so
"no network call" is an observable fact. -/
def getAnnouncements (F : String → FetchOptions → FetchResult JRec)
    (courses : List JRec) (opts : AnnouncementOptions) :
    FetchResult JRec × List String :=
  let contextCodes := courses.map (fun course => "course_" ++ toString course.id)
  if contextCodes.length = 0 then (.items [], [])
  else
    let announcementsUrl := "/api/v1/announcements?" ++
      "context_codes[]=" ++ String.intercalate "&context_codes[]=" contextCodes ++
      "&latest_only=" ++ jsBoolString opts.latestOnly ++
      "&start_date=" ++ opts.startDate
    (F announcementsUrl {}, [announcementsUrl])

/-- URLs built by the /api/all-data handler (template strings in the source). -/
def userUrl : String := "/api/v1/users/self"

/-- The /api/all-data course-list URL (src/index.js line 911). -/
def coursesUrl : String :=
  "/api/v1/courses?include[]=term&include[]=teachers&state[]=available"

/-- Assignment-list URL for a course (src/index.js line 937). -/
def assignmentsUrl (courseId : Nat) : String :=
  "/api/v1/courses/" ++ toString courseId ++ "/assignments"

/-- Submission-list URL for an assignment (src/index.js line 947). -/
def submissionsUrl (courseId assignmentId : Nat) : String :=
  "/api/v1/courses/" ++ toString courseId ++ "/assignments/" ++
    toString assignmentId ++ "/submissions"

/-- Module-list URL for a course (src/index.js line 972). -/
def modulesUrl (courseId : Nat) : String :=
  "/api/v1/courses/" ++ toString courseId ++ "/modules?include[]=items"

/-- Discussion-topic URL for a course (src/index.js line 981). -/
def discussionsUrl (courseId : Nat) : String :=
  "/api/v1/courses/" ++ toString courseId ++ "/discussion_topics"

/-- File-list URL for a course (src/index.js line 990). -/
def filesUrl (courseId : Nat) : String :=
  "/api/v1/courses/" ++ toString courseId ++ "/files"

/-- Page-list URL for a course (src/index.js line 999). -/
def pagesUrl (courseId : Nat) : String :=
  "/api/v1/courses/" ++ toString courseId ++ "/pages"

/-- Grade (own submissions) URL for a course (src/index.js line 1008). -/
def gradesUrl (courseId : Nat) : String :=
  "/api/v1/courses/" ++ toString courseId ++ "/students/submissions?student_ids[]=self"

/-- Calendar-events URL (src/index.js line 1067). -/
def calendarEventsUrl : String := "/api/v1/calendar_events"

/-- Conversations URL (src/index.js line 1081). -/
def conversationsUrl : String := "/api/v1/conversations"

/-- Todo URL (src/index.js line 1095). -/
def todoUrl : String := "/api/v1/users/self/todo"

/-- The announcements URL built at lines 1046-1049 from the context codes. -/
def allDataAnnouncementsUrl (contextCodes : List String) : String :=
  "/api/v1/announcements?" ++
    "context_codes[]=" ++ String.intercalate "&context_codes[]=" contextCodes ++
    "&latest_only=false" ++ "&start_date=2023-01-01"

/-- One aggregated assignment: the original record, the submissions attached
to it (lines 951-954), and the `submissionsError` marker set when the inner
submissions `try` fails (lines 957-961). -/
structure AsgWithSubs where
  assignment : JRec
  submissions : List JRec
  submissionsError : Option String
deriving DecidableEq, Repr

/-- The per-course `accessibleData` flags, each set to `true`/`false` in the
corresponding `try`/`catch` (lines 936-1013). -/
structure CourseAccess where
  assignments : Bool
  modules : Bool
  discussions : Bool
  files : Bool
  pages : Bool
  grades : Bool
deriving DecidableEq, Repr

/-- One entry of `coursesWithDetails` (lines 926-1021): the original course
record spread into `courseData`, the accessibility flags, and the fetched
sub-resources (stored verbatim on success, `[]` on a caught failure).
Per-course timing fields are Date.now bookkeeping and are elided. -/
structure CourseData where
  course : JRec
  accessibleData : CourseAccess
  assignments : List AsgWithSubs
  modules : FetchResult JRec
  discussions : FetchResult JRec
  files : FetchResult JRec
  pages : FetchResult JRec
  grades : FetchResult JRec
deriving DecidableEq, Repr

/-- One entry of the top-level `allData.errors` ledger. -/
structure ErrEntry where
  endpoint : String
  message : String
deriving DecidableEq, Repr

/-- The top-level `allData.accessibleData` flags. -/
structure TopAccess where
  user : Bool
  courses : Bool
  announcements : Bool
  calendarEvents : Bool
  conversations : Bool
  todo : Bool
deriving DecidableEq, Repr

/-- The composite `allData` object (lines 874-891), timing elided. -/
structure AllData where
  user : Option (FetchResult JRec)
  courses : List CourseData
  announcements : FetchResult JRec
  calendarEvents : FetchResult JRec
  conversations : FetchResult JRec
  todo : FetchResult JRec
  accessibleData : TopAccess
  errors : List ErrEntry
deriving DecidableEq, Repr

/-- Whether an awaited `fetchAllPages` call rejected (its promise threw). -/
def isThrown : FetchResult α → Bool
  | .thrown _ _ => true
  | _ => false

/-- The `error.message` of a rejected call. -/
def thrownMsg : FetchResult α → String
  | .thrown _ m => m
  | _ => ""

/-- The pattern `try { x = await fetchAllPages(u); acc.x = true } catch { x
= []; acc.x = false }` used for modules, discussions, files, pages and
grades (lines 970-1013): the fetched value is stored verbatim on success
(even a non-array such as the 403 marker object), `[]` on a caught throw. -/
def guarded (r : FetchResult JRec) : FetchResult JRec × Bool :=
  match r with
  | .thrown _ _ => (.items [], false)
  | v => (v, true)

/-- JS `value.length > 0` where `value` may be a non-array: `.length` of a
plain object is `undefined` and `undefined > 0` is `false`. -/
def jsLenPos : FetchResult JRec → Bool
  | .items l => decide (0 < l.length)
  | _ => false

/-- The per-course body of the `Promise.all` fan-out (src/index.js lines
926-1021).  The assignments `try` (lines 936-968): on success push one
entry per assignment, attaching submissions fetched with
`silentErrors: true` (a non-array submissions value degrades to `[]` by the
`Array.isArray` test at line 953); on a caught failure set `assignments =
[]` and `accessibleData.assignments = false`.  The remaining sub-resources
use the `guarded` pattern. -/
def courseDetail (F : String → FetchOptions → FetchResult JRec)
    (course : JRec) : CourseData :=
  let courseId := course.id
  let asg : List AsgWithSubs × Bool :=
    match F (assignmentsUrl courseId) {} with
    | .thrown _ _ => ([], false)
    | v =>
        let pushed : List AsgWithSubs :=
          match v with
          | .items assignments =>
              if 0 < assignments.length then
                assignments.map (fun assignment =>
                  match F (submissionsUrl courseId assignment.id)
                      { silentErrors := true } with
                  | .items subs => ⟨assignment, subs, none⟩
                  | .thrown _ _ => ⟨assignment, [], some "Permission denied"⟩
                  | _ => ⟨assignment, [], none⟩)
              else []
          | _ => []
        (pushed, true)
  let m := guarded (F (modulesUrl courseId) {})
  let d := guarded (F (discussionsUrl courseId) {})
  let f := guarded (F (filesUrl courseId) {})
  let p := guarded (F (pagesUrl courseId) {})
  let g := guarded (F (gradesUrl courseId) {})
  { course := course
    accessibleData := ⟨asg.2, m.2, d.2, f.2, p.2, g.2⟩
    assignments := asg.1
    modules := m.1
    discussions := d.1
    files := f.1
    pages := p.1
    grades := g.1 }

/-- The try-block of the /api/all-data handler (src/index.js lines 869-1114)
over an abstract `fetchAllPages` `F`.  Every stage mirrors the source's
`try`/`catch` structure and its `errors.push` calls; Date.now-based timing
fields are elided (they never influence the data).  Note that the announce-
ments stage runs `courses.map` inside its own `try`, so a non-array value in
the local `courses` variable (possible after a non-silent 403 on the course
fetch) raises a `TypeError` that is caught there. -/
def allDataAggregate (F : String → FetchOptions → FetchResult JRec) : AllData :=
  -- user (lines 894-905)
  let userR := F userUrl {}
  let user : Option (FetchResult JRec) :=
    if isThrown userR then none else some userR
  let userErrs : List ErrEntry :=
    if isThrown userR then [⟨"user", thrownMsg userR⟩] else []
  let accUser := !isThrown userR
  -- courses (lines 908-920); the local `courses` variable keeps `[]` on a throw
  let coursesR := F coursesUrl {}
  let coursesVal : FetchResult JRec :=
    if isThrown coursesR then .items [] else coursesR
  let courseErrs : List ErrEntry :=
    if isThrown coursesR then [⟨"courses", thrownMsg coursesR⟩] else []
  let accCourses := !isThrown coursesR
  -- per-course fan-out, only when `courses.length > 0` (lines 923-1032)
  let courseList : List CourseData :=
    match coursesVal with
    | .items cs => if 0 < cs.length then cs.map (courseDetail F) else []
    | _ => []
  -- announcements (lines 1035-1062); `allData.announcements` keeps `[]` on a throw
  let annState : FetchResult JRec × Bool × List ErrEntry :=
    match coursesVal with
    | .items cs =>
        let contextCodes := cs.map (fun course => "course_" ++ toString course.id)
        if contextCodes.length = 0 then (.items [], true, [])
        else
          let r := F (allDataAnnouncementsUrl contextCodes) {}
          if isThrown r then (.items [], false, [⟨"announcements", thrownMsg r⟩])
          else (r, true, [])
    | _ => (.items [], false, [⟨"announcements", "courses.map is not a function"⟩])
  -- calendar events, conversations, todo (lines 1065-1104)
  let calR := F calendarEventsUrl {}
  let calState : FetchResult JRec × Bool × List ErrEntry :=
    if isThrown calR then (.items [], false, [⟨"calendarEvents", thrownMsg calR⟩])
    else (calR, true, [])
  let convR := F conversationsUrl {}
  let convState : FetchResult JRec × Bool × List ErrEntry :=
    if isThrown convR then (.items [], false, [⟨"conversations", thrownMsg convR⟩])
    else (convR, true, [])
  let todoR := F todoUrl {}
  let todoState : FetchResult JRec × Bool × List ErrEntry :=
    if isThrown todoR then (.items [], false, [⟨"todo", thrownMsg todoR⟩])
    else (todoR, true, [])
  { user := user
    courses := courseList
    announcements := annState.1
    calendarEvents := calState.1
    conversations := convState.1
    todo := todoState.1
    accessibleData :=
      ⟨accUser, accCourses, annState.2.1, calState.2.1, convState.2.1, todoState.2.1⟩
    errors := userErrs ++ courseErrs ++ annState.2.2 ++ calState.2.2 ++
      convState.2.2 ++ todoState.2.2 }

/-! ## The /api/all-data catch handler and `startTime` scoping
(src/index.js lines 869-871 and 1115-1134) -/

/-- A JS runtime error raised while evaluating the catch block. -/
inductive JsError where
  | referenceError (name : String)
deriving DecidableEq, Repr

/-- The 500-style response body the catch handler is meant to send (lines
1122-1133): an error label, a details message, and the elapsed time from the
request's start to the failure point. -/
structure FailureResponse where
  status : Nat
  error : String
  details : String
  totalTimeMs : Int
deriving DecidableEq, Repr

/-- Identifiers declared with `const`/`let` INSIDE the `try` block of the
/api/all-data handler and therefore block-scoped to it; `startTime` is
declared at line 871, inside the `try` opened at line 869. -/
def allDataTryBlockConsts : List String :=
  ["startTime", "allData", "courses", "coursesWithDetails", "endTime"]

/-- Identifiers resolvable inside the catch block at lines 1115-1134: the
catch parameter and the bindings of the enclosing function and module
scopes.  `startTime` is absent, because its declaration is block-scoped to
the `try`. -/
def allDataCatchScope : List String :=
  ["error", "req", "res", "express", "dotenv", "cors", "axios", "app", "PORT",
   "CANVAS_URL", "CANVAS_API_KEY", "canvasAPI", "formatTime", "fetchAllPages"]

/-- JS identifier resolution: an identifier not bound in any enclosing scope
raises a `ReferenceError`. -/
def lookupName (scope : List String) (x : String) : Except JsError Unit :=
  if x ∈ scope then .ok () else .error (.referenceError x)

/-- The catch handler body (lines 1115-1134).  Line 1120 computes
`const totalTimeMs = endTime - startTime`, which first resolves the
identifier `startTime` against the catch scope; only if that resolution
succeeded would the handler reach `res.status(500).json({...})` with the
elapsed-time fields (the continuation after `lookupName`, with `now` in
place of the unavailable difference, is therefore unreachable). -/
def allDataCatchBody (errMsg : String) (now : Int) :
    Except JsError FailureResponse := do
  lookupName allDataCatchScope "startTime"
  .ok { status := 500, error := "Failed to fetch all data", details := errMsg,
        totalTimeMs := now }

/-! ## Concrete fixtures used by the witnesses -/

/-- A two-page upstream: page 0 holds `[1, 2]` and links to page 1, page 1
holds `[3]` and has no `Link` header. -/
def demoEnv : Nat → String → HttpOutcome Nat
  | 0, _ => .ok ⟨.arr [1, 2],
      some "<https://c.example.edu/api/v1/demo?page=2>; rel=\"next\""⟩
  | 1, _ => .ok ⟨.arr [3], none⟩
  | _, _ => .err none "unreachable"

/-- The chain description matching `demoEnv`. -/
def demoChain : ChainModel Nat where
  len := 2
  url := fun i => if i = 0 then "/api/v1/demo" else "/api/v1/demo?page=2"
  page := fun i => if i = 0 then [1, 2] else [3]
  hdr := fun i =>
    if i = 0 then some "<https://c.example.edu/api/v1/demo?page=2>; rel=\"next\""
    else none

/-- An upstream that denies everything with a 403. -/
def deny403Env : Nat → String → HttpOutcome Nat :=
  fun _ _ => .err (some 403) "Request failed with status code 403"

/-- An upstream that fails everything with a 500. -/
def err500Env : Nat → String → HttpOutcome Nat :=
  fun _ _ => .err (some 500) "Request failed with status code 500"

/-- An upstream whose page is shorter than the configured page size yet
still advertises a next link. -/
def shortPageEnv : Nat → String → HttpOutcome Nat :=
  fun _ _ => .ok ⟨.arr [1, 2], some "<https://c.example.edu/x>; rel=\"next\""⟩

/-- An upstream that answers with a single non-array object, with a `Link`
header present (which must be ignored). -/
def objEnv : Nat → String → HttpOutcome Nat :=
  fun _ _ => .ok ⟨.obj 42, some "<https://c.example.edu/x>; rel=\"next\""⟩

/-- A course with a student enrollment carrying both a current score of 91
and a final score of 85. -/
def bothScoresCourse : GradeCourse :=
  ⟨1, "Math", "MATH101",
    some [⟨"student", some 91, some 85, some "A-", some "B"⟩], some ⟨"Spring 2025"⟩⟩

/-- The /api/all-data fixture for the end-to-end partial-failure scenario:
two courses; course 1's three assignments (ids 10, 11, 12) fetch
successfully with submissions; course 2's assignment fetch rejects with a
non-403 (500) error; every other fetch succeeds. -/
def partialFailEnv : String → FetchOptions → FetchResult JRec := fun u _ =>
  if u = coursesUrl then .items [⟨1⟩, ⟨2⟩]
  else if u = assignmentsUrl 1 then .items [⟨10⟩, ⟨11⟩, ⟨12⟩]
  else if u = assignmentsUrl 2 then .thrown (some 500) "Request failed with status code 500"
  else if u = userUrl then .single ⟨7⟩
  else .items []

/-- With `nextUrl = null` the `while` loop exits at once, whatever the fuel. -/
theorem fetchGo_none (env : Nat → String → HttpOutcome α) (base url : String)
    (silent : Bool) (M fuel pc : Nat) (acc : List α) :
    fetchGo env base url silent M fuel none pc acc = ⟨.items acc, pc⟩ := by
  cases fuel <;> rfl

/-- Loop invariant for a fetch against a valid chain: from the state that has
consumed the first `k` pages, the loop returns the accumulator extended by
the remaining pages up to the `maxPages` cap, with final page count
`min c.len M`. -/
theorem fetchGo_chain (env : Nat → String → HttpOutcome α) (base u0 : String)
    (c : ChainModel α) (silent : Bool) (M : Nat) (hc : IsChain env base u0 c) :
    ∀ fuel k acc, k + fuel = M → k ≤ min c.len M →
      fetchGo env base u0 silent M fuel
          (if k < c.len then some (c.url k) else none) k acc
        = ⟨.items (acc ++ chainSeg c k (min c.len M - k)), min c.len M⟩ := by
  intro fuel
  induction fuel with
  | zero =>
      intro k acc hkM hkmin
      have hmin : min c.len M = k := by omega
      have h0 : fetchGo env base u0 silent M 0
          (if k < c.len then some (c.url k) else none) k acc
            = ⟨.items acc, k⟩ := rfl
      rw [h0, hmin, Nat.sub_self]
      simp [chainSeg]
  | succ fuel ih =>
      intro k acc hkM hkmin
      by_cases hklen : k < c.len
      · rw [if_pos hklen]
        have hne : c.url k ≠ "" := hc.url_truthy k hklen
        by_cases hkM' : k < M
        · have hserve := hc.serves k hklen
          have hlink := hc.links k hklen
          simp only [fetchGo, if_neg hne, if_pos hkM', hserve]
          by_cases hk1 : k + 1 < c.len
          · -- a non-final page: no early stop, follow the next link
            obtain ⟨hpne, hpp⟩ := hc.mid_full k hk1
            have hl0 : ¬ (c.page k).length = 0 := by simpa using hpne
            have hrec :
                fetchGo env base u0 silent M fuel
                    (nextFromLink base (c.hdr k)) (k + 1) (acc ++ c.page k)
                  = ⟨.items (acc ++ chainSeg c k (min c.len M - k)),
                      min c.len M⟩ := by
              rw [hlink, if_pos hk1]
              have hih := ih (k + 1) (acc ++ c.page k) (by omega) (by omega)
              rw [if_pos hk1] at hih
              rw [hih]
              have hx : min c.len M - k = (min c.len M - (k + 1)) + 1 := by
                omega
              rw [hx]
              simp [chainSeg]
            rw [if_neg hl0]
            by_cases hps : hasSub u0 "per_page=" = true
            · rw [if_pos hps]
              obtain ⟨n, hn, hnle⟩ := hpp hps
              simp only [hn]
              rw [if_neg (by omega : ¬ (c.page k).length < n)]
              exact hrec
            · rw [if_neg hps]
              exact hrec
          · -- the final page of the chain: the loop stops after it
            have hmin : min c.len M = k + 1 := by omega
            have hfin : (⟨.items (acc ++ c.page k), k + 1⟩ : FetchRun α)
                = ⟨.items (acc ++ chainSeg c k (min c.len M - k)),
                    min c.len M⟩ := by
              have h1 : min c.len M - k = 1 := by omega
              rw [h1, hmin]
              simp [chainSeg]
            have hnolink : nextFromLink base (c.hdr k) = none := by
              rw [hlink, if_neg hk1]
            by_cases hl0 : (c.page k).length = 0
            · rw [if_pos hl0]; exact hfin
            · rw [if_neg hl0]
              by_cases hps : hasSub u0 "per_page=" = true
              · rw [if_pos hps]
                obtain ⟨n, hn⟩ := Option.isSome_iff_exists.mp (hc.pp_ok hps)
                simp only [hn]
                by_cases hlt : (c.page k).length < n
                · rw [if_pos hlt]; exact hfin
                · rw [if_neg hlt, hnolink, fetchGo_none]; exact hfin
              · rw [if_neg hps, hnolink, fetchGo_none]; exact hfin
        · -- the maxPages cap was reached with continuation tokens remaining
          have hmin : min c.len M = k := by omega
          simp only [fetchGo, if_neg hne, if_neg hkM']
          rw [hmin, Nat.sub_self]
          simp [chainSeg]
      · -- past the end of the chain: nextUrl is null
        rw [if_neg hklen]
        have hmin : min c.len M = k := by omega
        rw [fetchGo_none, hmin, Nat.sub_self]
        simp [chainSeg]

/-- C1 (pagination termination).  For every paginated fetch whose pages
form a valid chain of `next` links (`IsChain`), `fetchAllPages` concatenates
the items of all pages in page order and stops when no next link is present;
and for every chain longer than `maxPages` (default 10), it stops after
exactly `maxPages` pages — `pageCount` ends at `maxPages` and only the first
`maxPages` pages' items are returned — even though continuation tokens
remain (`IsChain` provides a next link at every non-final page). -/
theorem fetchAllPages_chain (env : Nat → String → HttpOutcome α)
    (base u0 : String) (c : ChainModel α) (silent logT : Bool) (M : Nat)
    (hc : IsChain env base u0 c) :
    fetchAllPagesRun env base u0 ⟨silent, M, logT⟩
        = ⟨.items (chainSeg c 0 (min c.len M)), min c.len M⟩ ∧
      (c.len ≤ M →
        fetchAllPagesRun env base u0 ⟨silent, M, logT⟩
          = ⟨.items (chainSeg c 0 c.len), c.len⟩) ∧
      (M < c.len →
        fetchAllPagesRun env base u0 ⟨silent, M, logT⟩
          = ⟨.items (chainSeg c 0 M), M⟩) := by
  have h0 := fetchGo_chain env base u0 c silent M hc M 0 [] (by omega) (by omega)
  rw [if_pos hc.len_pos, hc.url_zero, Nat.sub_zero] at h0
  have hmain : fetchAllPagesRun env base u0 ⟨silent, M, logT⟩
      = ⟨.items (chainSeg c 0 (min c.len M)), min c.len M⟩ := by
    unfold fetchAllPagesRun
    simpa using h0
  refine ⟨hmain, ?_, ?_⟩
  · intro hle
    rw [hmain, Nat.min_eq_left hle]
  · intro hlt
    rw [hmain, Nat.min_eq_right (Nat.le_of_lt hlt)]

/-! ## Theorems about the 403 and error policies of the fetcher -/

/-- C2 (403 policy).  Whenever a `fetchAllPages` run encounters an
authorization-denied (403) response — at any loop state, hence on any page —
it returns `[]` when `silentErrors` is true, and the plain object
`{error: "Permission denied", status: 403}` as an ordinary value (the
`errObj` constructor, not the `thrown` one) when `silentErrors` is false.
The first conjunct states this for an arbitrary loop state of `fetchGo`;
the second specializes it to a full `fetchAllPages` call whose first request
is denied. -/
theorem fetch_403_policy (env : Nat → String → HttpOutcome α)
    (base u0 u msg : String) (silent logT : Bool) (M fuel pc : Nat)
    (acc : List α) :
    (u ≠ "" → pc < M → env pc (withCacheBuster u pc) = .err (some 403) msg →
        fetchGo env base u0 silent M (fuel + 1) (some u) pc acc
          = ⟨if silent then .items [] else .errObj "Permission denied" 403,
              pc + 1⟩) ∧
      (u0 ≠ "" → 0 < M → env 0 (withCacheBuster u0 0) = .err (some 403) msg →
        fetchAllPages env base u0 ⟨silent, M, logT⟩
          = if silent then .items [] else .errObj "Permission denied" 403) := by
  have key : ∀ (v : String) (fl pg : Nat) (ac : List α), v ≠ "" → pg < M →
      env pg (withCacheBuster v pg) = .err (some 403) msg →
      fetchGo env base u0 silent M (fl + 1) (some v) pg ac
        = ⟨if silent then .items [] else .errObj "Permission denied" 403,
            pg + 1⟩ := by
    intro v fl pg ac hv hpg h403
    simp only [fetchGo, if_neg hv, if_pos hpg, h403]
    simp
  refine ⟨key u fuel pc acc, ?_⟩
  intro hu hM h403
  obtain ⟨m, rfl⟩ := Nat.exists_eq_succ_of_ne_zero (Nat.pos_iff_ne_zero.mp hM)
  show (fetchGo env base u0 silent (m + 1) (m + 1) (some u0) 0 []).result = _
  rw [key u0 m 0 [] hu (Nat.succ_pos m) h403]

/-- Witness for C2: a resource denied with 403 yields the error-marker
object non-silently and the empty array silently. -/
theorem fetch_403_policy_witness :
    fetchAllPages deny403Env "https://c.example.edu" "/api/v1/users/self"
        ⟨false, 10, false⟩ = .errObj "Permission denied" 403 ∧
      fetchAllPages deny403Env "https://c.example.edu" "/api/v1/users/self"
        ⟨true, 10, false⟩ = .items [] := by
  constructor
  · have h := (fetch_403_policy deny403Env "https://c.example.edu"
      "/api/v1/users/self" "/api/v1/users/self"
      "Request failed with status code 403" false false 10 0 0 []).2
      (by decide) (by omega) rfl
    simpa using h
  · have h := (fetch_403_policy deny403Env "https://c.example.edu"
      "/api/v1/users/self" "/api/v1/users/self"
      "Request failed with status code 403" true false 10 0 0 []).2
      (by decide) (by omega) rfl
    simpa using h

/-- C10 (no partial prefixes on failure).  If any request of a
`fetchAllPages` run fails — whatever page the loop is on and whatever items
`acc` have already been accumulated from earlier successful pages — the
accumulated items are discarded: the run returns exactly `[]` (silent mode),
the 403 marker object (non-silent 403), or the propagated failure
(non-silent other error).  The conclusion does not mention `acc`. -/
theorem fetch_error_discards_accumulator (env : Nat → String → HttpOutcome α)
    (base u0 u msg : String) (st : Option Nat) (silent : Bool)
    (M fuel pc : Nat) (acc : List α) (hu : u ≠ "") (hpc : pc < M)
    (herr : env pc (withCacheBuster u pc) = .err st msg) :
    fetchGo env base u0 silent M (fuel + 1) (some u) pc acc
      = ⟨if st = some 403 then
            (if silent then .items [] else .errObj "Permission denied" 403)
          else (if silent then .items [] else .thrown st msg), pc + 1⟩ := by
  simp only [fetchGo, if_neg hu, if_pos hpc, herr]
  by_cases h : st = some 403 <;> simp [h]

/-- Witness for C10: a 500 on page 4 of a run that had already gathered
`[1, 2, 3]` discards those items and propagates the failure. -/
theorem fetch_error_discards_accumulator_witness :
    fetchGo err500Env "https://c.example.edu" "/api/v1/conversations" false 10
        10 (some "/api/v1/conversations?page=4") 3 [1, 2, 3]
      = ⟨.thrown (some 500) "Request failed with status code 500", 4⟩ := by
  have h := fetch_error_discards_accumulator err500Env "https://c.example.edu"
    "/api/v1/conversations" "/api/v1/conversations?page=4"
    "Request failed with status code 500" (some 500) false 10 9 3 [1, 2, 3]
    (by decide) (by omega) rfl
  simpa using h

/-- C5 (early stop keeps the last page).  If a page's item count is zero, or
smaller than the page size configured (as `per_page=`) in the original
request URL, the loop stops immediately after that page — one more
`pageCount` and no further requests — and the returned sequence still ends
with that page's items (`acc ++ l`): the early stop never drops the last
non-empty page. -/
theorem fetch_early_stop_keeps_page (env : Nat → String → HttpOutcome α)
    (base u0 u : String) (hdr : Option String) (silent : Bool)
    (M fuel pc n : Nat) (l acc : List α) (hu : u ≠ "") (hpc : pc < M)
    (hok : env pc (withCacheBuster u pc) = .ok ⟨.arr l, hdr⟩)
    (hstop : l = [] ∨ (hasSub u0 "per_page=" = true ∧
      perPageParam u0 = some n ∧ l.length < n)) :
    fetchGo env base u0 silent M (fuel + 1) (some u) pc acc
      = ⟨.items (acc ++ l), pc + 1⟩ := by
  simp only [fetchGo, if_neg hu, if_pos hpc, hok]
  rcases hstop with rfl | ⟨hps, hn, hlt⟩
  · simp
  · by_cases hl0 : l.length = 0
    · simp [hl0]
    · rw [if_neg hl0, if_pos hps]
      simp only [hn]
      rw [if_pos hlt]

/-- Witness for C5: a 2-item page under `per_page=5` stops pagination even
though a next link is advertised, and the page's items are kept. -/
theorem fetch_early_stop_keeps_page_witness :
    fetchGo shortPageEnv "https://c.example.edu" "/api/v1/x?per_page=5" false
        10 10 (some "/api/v1/x?per_page=5") 0 []
      = ⟨.items [1, 2], 1⟩ := by
  have h := fetch_early_stop_keeps_page shortPageEnv "https://c.example.edu"
    "/api/v1/x?per_page=5" "/api/v1/x?per_page=5"
    (some "<https://c.example.edu/x>; rel=\"next\"") false 10 9 0 5 [1, 2] []
    (by decide) (by omega) rfl (Or.inr ⟨by decide, by decide, by decide⟩)
  simpa using h

/-- C6 (non-array short circuit).  If the first page's decoded body is a
single object rather than an array, `fetchAllPages` returns that object
verbatim at once: the conclusion holds for every `Link` header `hdr`
(pagination metadata is never inspected) and the final `pageCount` is 1 (no
further requests are issued). -/
theorem fetch_non_array_short_circuit (env : Nat → String → HttpOutcome α)
    (base u0 : String) (hdr : Option String) (o : α) (silent logT : Bool)
    (M : Nat) (hu : u0 ≠ "") (hM : 0 < M)
    (hok : env 0 (withCacheBuster u0 0) = .ok ⟨.obj o, hdr⟩) :
    fetchAllPagesRun env base u0 ⟨silent, M, logT⟩ = ⟨.single o, 1⟩ := by
  obtain ⟨m, rfl⟩ := Nat.exists_eq_succ_of_ne_zero (Nat.pos_iff_ne_zero.mp hM)
  show fetchGo env base u0 silent (m + 1) (m + 1) (some u0) 0 [] = _
  simp only [fetchGo, if_neg hu, if_pos (Nat.succ_pos m), hok]

/-- Witness for C6: a single-object body is returned verbatim in one
request, with a next link present but ignored. -/
theorem fetch_non_array_short_circuit_witness :
    fetchAllPagesRun objEnv "https://c.example.edu" "/api/v1/users/self"
      ⟨false, 10, false⟩ = ⟨.single 42, 1⟩ :=
  fetch_non_array_short_circuit objEnv "https://c.example.edu"
    "/api/v1/users/self" (some "<https://c.example.edu/x>; rel=\"next\"") 42
    false false 10 (by decide) (by omega) rfl

/-! ## Theorems about sorting, grades, announcements and aggregation -/

/-- The Boolean "may precede" relation of the due-date comparator coincides
with comparing the spec's sort keys (missing date = `⊤`). -/
theorem jsSortLe_iff (a b : Assignment) :
    jsSortLe a b = true ↔ dueKeySpec a ≤ dueKeySpec b := by
  by_cases ha : jsTruthyStr a.due_at <;> by_cases hb : jsTruthyStr b.due_at <;>
    simp [jsSortLe, dueCmp, dueKeySpec, ha, hb]

/-- C7 (assignment ordering).  For every list of aggregated assignments, the
post-processing sort returns a permutation of its input that is ascending in
the total order where a missing due date compares greater than any date
(nulls last); in particular the input due dates
`[null, "2025-03-01", "2025-01-01"]` come out as
`["2025-01-01", "2025-03-01", null]`. -/
theorem sort_by_due_date_spec :
    (∀ l : List Assignment,
        (sortByDueDate l).Perm l ∧
          (sortByDueDate l).Pairwise (fun a b => dueKeySpec a ≤ dueKeySpec b)) ∧
      sortByDueDate
          [⟨1, none⟩, ⟨2, some "2025-03-01"⟩, ⟨3, some "2025-01-01"⟩]
        = [⟨3, some "2025-01-01"⟩, ⟨2, some "2025-03-01"⟩, ⟨1, none⟩] := by
  constructor
  · intro l
    haveI htot : IsTotal Assignment (fun a b => jsSortLe a b = true) := by
      constructor
      intro a b
      rcases le_total (dueKeySpec a) (dueKeySpec b) with h | h
      · exact Or.inl ((jsSortLe_iff a b).mpr h)
      · exact Or.inr ((jsSortLe_iff b a).mpr h)
    haveI htr : IsTrans Assignment (fun a b => jsSortLe a b = true) := by
      constructor
      intro a b c₀ hab hbc
      exact (jsSortLe_iff a c₀).mpr
        (le_trans ((jsSortLe_iff a b).mp hab) ((jsSortLe_iff b c₀).mp hbc))
    refine ⟨List.perm_insertionSort (fun a b => jsSortLe a b = true) l, ?_⟩
    have hs := List.sorted_insertionSort (fun a b => jsSortLe a b = true) l
    exact hs.imp (fun h => (jsSortLe_iff _ _).mp h)
  · decide

/-- C8 (grade extraction).  For every course: the enrollment used is the
first one of type "student" (third conjunct); given that enrollment, a grade
is present iff it carries a current-score or final-score field, the current
score is preferred when both are present, and an absent current score falls
back to the final score (second conjunct); an absent enrollment yields null
grade, letter and type — never an error, as `extractGrade` is total (first
conjunct).  Concretely, `computed_current_score = 91` together with
`computed_final_score = 85` yields 91 (last conjunct). -/
theorem grade_extraction_spec (course : GradeCourse) :
    (studentEnrollment course = none →
        (extractGrade course).grade = none ∧
          (extractGrade course).grade_letter = none ∧
          (extractGrade course).enrollment_type = none) ∧
      (∀ e, studentEnrollment course = some e →
        ((extractGrade course).grade.isSome ↔
            (e.computed_current_score.isSome ∨ e.computed_final_score.isSome)) ∧
          (∀ x, e.computed_current_score = some x →
            (extractGrade course).grade = some x) ∧
          (e.computed_current_score = none →
            (extractGrade course).grade = e.computed_final_score) ∧
          (extractGrade course).enrollment_type = some e.type) ∧
      (∀ es₁ e es₂, course.enrollments = some (es₁ ++ e :: es₂) →
        (∀ e₀, e₀ ∈ es₁ → e₀.type ≠ "student") → e.type = "student" →
        studentEnrollment course = some e) ∧
      (extractGrade bothScoresCourse).grade = some 91 := by
  refine ⟨?_, ?_, ?_, by decide⟩
  · intro h
    simp [extractGrade, h]
  · intro e he
    refine ⟨?_, ?_, ?_, ?_⟩
    · cases hc : e.computed_current_score <;> cases hf : e.computed_final_score <;>
        simp [extractGrade, he, hc, hf]
    · intro x hx
      simp [extractGrade, he, hx]
    · intro hc
      cases hf : e.computed_final_score <;> simp [extractGrade, he, hc, hf]
    · simp [extractGrade, he]
  · intro es₁ e es₂ hens hnone hstu
    simp only [studentEnrollment, hens]
    clear hens
    induction es₁ with
    | nil =>
        rw [List.nil_append, List.find?_cons_of_pos _ (by simp [hstu])]
    | cons x xs ih =>
        rw [List.cons_append, List.find?_cons_of_neg _
          (by simpa using hnone x (List.mem_cons_self x xs))]
        exact ih (fun e₀ he₀ => hnone e₀ (List.mem_cons_of_mem x he₀))

/-- Witness for C8: the extraction applied to a concrete course whose
student enrollment carries both scores prefers the current score 91. -/
theorem grade_extraction_spec_witness :
    (extractGrade bothScoresCourse).grade = some 91 ∧
      (extractGrade bothScoresCourse).enrollment_type = some "student" := by
  have h := (grade_extraction_spec bothScoresCourse).2.1
    ⟨"student", some 91, some 85, some "A-", some "B"⟩ (by decide)
  exact ⟨h.2.1 91 rfl, h.2.2.2⟩

/-- C9 (empty-course announcement short circuit).  With an empty course
list, `getAnnouncements` returns the empty sequence and delegates no URL to
the paginated fetcher (no network call), for every fetcher and options. -/
theorem announcements_empty_courses
    (F : String → FetchOptions → FetchResult JRec)
    (opts : AnnouncementOptions) :
    getAnnouncements F [] opts = (.items [], []) := rfl

/-- A sub-fetch that did not throw always sets its accessibility flag. -/
theorem guarded_snd (r : FetchResult JRec) (h : isThrown r = false) :
    (guarded r).2 = true := by
  cases r <;> simp_all [guarded, isThrown]

/-- C3 (partial-failure isolation in /api/all-data).  If the course list
fetch yields `cs` and exactly course `j`'s assignments fetch rejects with a
(non-403, hence thrown) error while the guarded top-level fetches and course
`j`'s modules fetch succeed, then: the aggregation still completes, its
per-course report being exactly `cs.map (courseDetail F)` (each course's
entry depends only on its own fetches); course `j`'s entry has
`accessibleData.assignments = false` and an empty assignment list; its
sibling modules flag is still true; every course whose assignments fetch
returned an array has `accessibleData.assignments = true`; and the top-level
`errors` ledger is empty — the locally-caught per-course failure adds no
entry. -/
theorem all_data_partial_failure
    (F : String → FetchOptions → FetchResult JRec) (cs : List JRec) (j : Nat)
    (st : Option Nat) (m : String) (hj : j < cs.length)
    (hcourses : F coursesUrl {} = .items cs)
    (hfail : F (assignmentsUrl ((cs.get ⟨j, hj⟩).id)) {} = .thrown st m)
    (hmods : isThrown (F (modulesUrl ((cs.get ⟨j, hj⟩).id)) {}) = false)
    (huser : isThrown (F userUrl {}) = false)
    (hann : isThrown (F (allDataAnnouncementsUrl
        (cs.map (fun course => "course_" ++ toString course.id))) {}) = false)
    (hcal : isThrown (F calendarEventsUrl {}) = false)
    (hconv : isThrown (F conversationsUrl {}) = false)
    (htodo : isThrown (F todoUrl {}) = false) :
    (allDataAggregate F).courses = cs.map (courseDetail F) ∧
      (courseDetail F (cs.get ⟨j, hj⟩)).accessibleData.assignments = false ∧
      (courseDetail F (cs.get ⟨j, hj⟩)).assignments = [] ∧
      (courseDetail F (cs.get ⟨j, hj⟩)).accessibleData.modules = true ∧
      (∀ c A, c ∈ cs → F (assignmentsUrl c.id) {} = .items A →
        (courseDetail F c).accessibleData.assignments = true) ∧
      (allDataAggregate F).errors = [] := by
  have hlen : 0 < cs.length := by omega
  generalize hg : cs.get ⟨j, hj⟩ = c0 at hfail hmods ⊢
  refine ⟨?_, ?_, ?_, ?_, ?_, ?_⟩
  · simp [allDataAggregate, hcourses, isThrown, hlen]
  · simp [courseDetail, hfail]
  · simp [courseDetail, hfail]
  · simp [courseDetail]
    exact guarded_snd _ hmods
  · intro c A hc hA
    simp [courseDetail, hA]
  · have hcourses2 : isThrown (F coursesUrl {}) = false := by
      rw [hcourses]; rfl
    have hitems : ∀ l : List JRec, isThrown (FetchResult.items l) = false :=
      fun _ => rfl
    simp [allDataAggregate, hcourses, hcourses2, huser, hann, hcal, hconv,
      htodo, hitems, List.ne_nil_of_length_pos hlen,
      Nat.pos_iff_ne_zero.mp hlen]

/-- Witness for C3: the concrete two-course scenario — course 1 keeps its 3
assignments, course 2 degrades to an inaccessible empty list, and the
top-level errors ledger stays empty. -/
theorem all_data_partial_failure_witness :
    (allDataAggregate partialFailEnv).errors = [] ∧
      (courseDetail partialFailEnv ⟨2⟩).accessibleData.assignments = false ∧
      (courseDetail partialFailEnv ⟨2⟩).assignments = [] ∧
      (courseDetail partialFailEnv ⟨1⟩).accessibleData.assignments = true ∧
      (courseDetail partialFailEnv ⟨1⟩).assignments.length = 3 := by
  have h := all_data_partial_failure partialFailEnv [⟨1⟩, ⟨2⟩] 1 (some 500)
    "Request failed with status code 500" (by decide) (by decide) (by decide)
    (by decide) (by decide) (by decide) (by decide) (by decide) (by decide)
  exact ⟨h.2.2.2.2.2, h.2.1, h.2.2.1,
    h.2.2.2.2.1 ⟨1⟩ [⟨10⟩, ⟨11⟩, ⟨12⟩] (by decide) (by decide), by decide⟩

/-- C4 (code bug: catch-handler timing).  The catch handler of /api/all-data
(lines 1115-1134) is supposed to answer a setup failure with a 500-style
response carrying a details message and the elapsed time from the request's
start.  But `startTime` is declared `const` INSIDE the `try` block (line
871), so it is block-scoped there and absent from every scope visible at
line 1120; evaluating `endTime - startTime` therefore raises
`ReferenceError: startTime is not defined` and the handler never produces
the claimed response. -/
theorem all_data_catch_start_time_bug :
    (∀ errMsg now, allDataCatchBody errMsg now
        = .error (.referenceError "startTime")) ∧
      "startTime" ∈ allDataTryBlockConsts ∧
      "startTime" ∉ allDataCatchScope := by
  refine ⟨fun errMsg now => rfl, by decide, by decide⟩

/-- The two-page demo fixture is a valid chain for its oracle. -/
theorem demoChain_isChain :
    IsChain demoEnv "https://c.example.edu" "/api/v1/demo" demoChain := by
  refine ⟨by decide, rfl, ?_, ?_, ?_, ?_, ?_⟩
  · intro i hi
    have h2 : i < 2 := hi
    interval_cases i <;> decide
  · intro h
    exact absurd h (by decide)
  · intro i hi
    have h2 : i + 1 < 2 := hi
    have h1 : i = 0 := by omega
    subst h1
    exact ⟨by decide, fun h => absurd h (by decide)⟩
  · intro i hi
    have h2 : i < 2 := hi
    interval_cases i <;> rfl
  · intro i hi
    have h2 : i < 2 := hi
    interval_cases i <;> decide

/-- Witness for C1: on the concrete two-page chain, a `maxPages = 10` fetch
returns both pages' items in order in 2 requests, and a `maxPages = 1` fetch
stops after exactly 1 page although a continuation token remains. -/
theorem fetchAllPages_chain_witness :
    fetchAllPagesRun demoEnv "https://c.example.edu" "/api/v1/demo"
        ⟨false, 10, false⟩ = ⟨.items [1, 2, 3], 2⟩ ∧
      fetchAllPagesRun demoEnv "https://c.example.edu" "/api/v1/demo"
        ⟨false, 1, false⟩ = ⟨.items [1, 2], 1⟩ := by
  constructor
  · have h := (fetchAllPages_chain demoEnv "https://c.example.edu"
      "/api/v1/demo" demoChain false false 10 demoChain_isChain).1
    rw [h]
    decide
  · have h := (fetchAllPages_chain demoEnv "https://c.example.edu"
      "/api/v1/demo" demoChain false false 1 demoChain_isChain).1
    rw [h]
    decide

end CanvasData
